import Mathlib

/-!
Shallow embedding of `tools/compliance-mapper.py` (class `ComplianceMapper`).

Python dicts are modelled as insertion-ordered association lists
`List (String × α)` (keys are unique by construction in every dict the
program builds); Python sets are modelled as `Finset String`; the float
`coverage_percentage` is modelled as `ℚ` (the program only ever divides two
small integer counts and multiplies by 100).  The final set→list conversion
performed for JSON serialization (which reorders sets arbitrarily) is a
serialization concern and is not part of the modelled core: summaries keep
their set form.
-/

set_option autoImplicit false

/-- `ComplianceControl` dataclass.  `checks` holds opaque check descriptors. -/
structure ComplianceControl where
  id : String
  title : String
  description : String
  severity : String
  checks : List String
deriving DecidableEq

/-- `ComplianceStandard` dataclass. -/
structure ComplianceStandard where
  id : String
  name : String
  version : String
  controls : List ComplianceControl
deriving DecidableEq

/-- `self.standards`: dict from standard id to standard (insertion ordered). -/
abbrev StandardCatalog := List (String × ComplianceStandard)

/-- Python `k in d` on a dict. -/
def dictContains {α : Type} (d : List (String × α)) (k : String) : Bool :=
  d.any (fun e => e.1 == k)

/-- Python `d[k]` on a dict, as an option (keys are unique in all dicts built
by the program, so first-match lookup is the dict lookup). -/
def dictGet? {α : Type} (d : List (String × α)) (k : String) : Option α :=
  (d.find? (fun e => e.1 == k)).map (fun e => e.2)

/-- Lookup with a default for absent keys. -/
def dictGetD {α : Type} (d : List (String × α)) (k : String) (v : α) : α :=
  (dictGet? d k).getD v

/-- Python `d[k] = v`: overwrite in place if present, else append. -/
def dictSet {α : Type} (d : List (String × α)) (k : String) (v : α) :
    List (String × α) :=
  if dictContains d k then d.map (fun e => if e.1 == k then (e.1, v) else e)
  else d ++ [(k, v)]

/-- In-place mutation of the value stored at key `k` (Python
`d[k].append(...)` / `d[k].update(...)`). -/
def dictModify {α : Type} (d : List (String × α)) (k : String) (f : α → α) :
    List (String × α) :=
  d.map (fun e => if e.1 == k then (e.1, f e.2) else e)

/-- The key list of a dict, in insertion order. -/
def dictKeys {α : Type} (d : List (String × α)) : List String :=
  d.map (fun e => e.1)

/-- Python `s.split(sep)` for a one-character separator, on the character
list: splits at every occurrence, keeping empty pieces; the empty string
yields one empty piece. -/
def splitCharList (sep : Char) : List Char → List (List Char)
  | [] => [[]]
  | c :: cs =>
    match splitCharList sep cs with
    | [] => [[]]
    | t :: ts => if c = sep then [] :: t :: ts else (c :: t) :: ts

/-- Python `ref.split('-')`. -/
def pySplit (sep : Char) (s : String) : List String :=
  (splitCharList sep s.data).map (fun cs => String.mk cs)

/-- Python `sep.join(xs)`. -/
def pyJoin (sep : String) : List String → String
  | [] => ""
  | [s] => s
  | s :: rest => s ++ sep ++ pyJoin sep rest

/-- `standard_id = '-'.join(parts[:2]) if len(parts) >= 2 else ref`
(lines 81-82 of the source, inlined reference parsing). -/
def parseStandardId (ref : String) : String :=
  let parts := pySplit '-' ref
  if 2 ≤ parts.length then pyJoin "-" (parts.take 2) else ref

/-- `control_id = '-'.join(parts[2:])` when `len(parts) > 2`, else absent
(lines 89-90 of the source). -/
def parseControlId (ref : String) : Option String :=
  let parts := pySplit '-' ref
  if 2 < parts.length then some (pyJoin "-" (parts.drop 2)) else none

/-- The `metadata` dict of a policy: optional `name`, optional `compliance`. -/
structure PolicyMetadata where
  name : Option String
  compliance : Option (List String)
deriving DecidableEq

/-- A policy dict; only `metadata` is read by the mapper. -/
structure Policy where
  metadata : Option PolicyMetadata
deriving DecidableEq

/-- `policy.get('metadata', {}).get('compliance', [])`. -/
def Policy.complianceRefs (p : Policy) : List String :=
  match p.metadata with
  | none => []
  | some md => md.compliance.getD []

/-- `policy.get('metadata', {}).get('name', 'unknown')`. -/
def Policy.getName (p : Policy) : String :=
  match p.metadata with
  | none => "unknown"
  | some md => md.name.getD "unknown"

/-- Body of the `for ref in compliance_refs` loop of
`map_policy_to_standards` (lines 79-91): parse the reference; when the
standard is known, create its (empty) entry if absent, then append the
control id when one is present. -/
def mapStep (catalog : StandardCatalog)
    (mapping : List (String × List String)) (ref : String) :
    List (String × List String) :=
  let sid := parseStandardId ref
  if dictContains catalog sid then
    let mapping :=
      if dictContains mapping sid then mapping else mapping ++ [(sid, [])]
    match parseControlId ref with
    | some cid => dictModify mapping sid (fun v => v ++ [cid])
    | none => mapping
  else mapping

/-- `ComplianceMapper.map_policy_to_standards`. -/
def map_policy_to_standards (catalog : StandardCatalog) (policy : Policy) :
    List (String × List String) :=
  policy.complianceRefs.foldl (mapStep catalog) []

/-- One entry of `report["details"]`. -/
structure PolicyDetail where
  policy_name : String
  standards : List (String × List String)
deriving DecidableEq

/-- `report["summary"]`. -/
structure ReportSummary where
  total_policies : Nat
  standards_covered : Finset String
  controls_covered : List (String × Finset String)
deriving DecidableEq

/-- The report returned by `generate_compliance_report`. -/
structure ComplianceReport where
  summary : ReportSummary
  details : List (String × PolicyDetail)
deriving DecidableEq

/-- Summary update for one `(standard_id, controls)` item of a policy's
mapping (lines 117-122): add the standard to `standards_covered`, create its
`controls_covered` set if absent, then union the controls in. -/
def summaryStep (s : ReportSummary) (entry : String × List String) :
    ReportSummary :=
  let sc := insert entry.1 s.standards_covered
  let cc :=
    if dictContains s.controls_covered entry.1 then s.controls_covered
    else s.controls_covered ++ [(entry.1, ∅)]
  { s with standards_covered := sc,
           controls_covered := dictModify cc entry.1 (fun f => f ∪ entry.2.toFinset) }

/-- Body of the `for policy in policies` loop of
`generate_compliance_report` (lines 106-122). -/
def reportStep (catalog : StandardCatalog) (r : ComplianceReport)
    (policy : Policy) : ComplianceReport :=
  let pname := policy.getName
  let mapping := map_policy_to_standards catalog policy
  { summary := mapping.foldl summaryStep r.summary,
    details := dictSet r.details pname ⟨pname, mapping⟩ }

/-- `ComplianceMapper.generate_compliance_report`. -/
def generate_compliance_report (catalog : StandardCatalog)
    (policies : List Policy) : ComplianceReport :=
  policies.foldl (reportStep catalog)
    { summary := { total_policies := policies.length,
                   standards_covered := ∅,
                   controls_covered := [] },
      details := [] }

/-- The result dict of `check_compliance_gap`. -/
structure GapResult where
  standard : String
  required_controls : List String
  implemented_controls : Finset String
  missing_controls : Finset String
  coverage_percentage : ℚ
deriving DecidableEq

/-- The two runtime failures `check_compliance_gap` can raise:
`ValueError(f"Standard {required_standard} not found")` and Python's
`ZeroDivisionError` from `len(...) / len(required_controls)`. -/
inductive GapError where
  | unknownStandard (id : String)
  | divisionByZero
deriving DecidableEq

instance {ε α : Type} [DecidableEq ε] [DecidableEq α] :
    DecidableEq (Except ε α) := fun x y =>
  match x, y with
  | Except.ok a, Except.ok b =>
    if h : a = b then Decidable.isTrue (by rw [h])
    else Decidable.isFalse (by intro he; cases he; exact h rfl)
  | Except.error a, Except.error b =>
    if h : a = b then Decidable.isTrue (by rw [h])
    else Decidable.isFalse (by intro he; cases he; exact h rfl)
  | Except.ok _, Except.error _ => Decidable.isFalse (by intro he; cases he)
  | Except.error _, Except.ok _ => Decidable.isFalse (by intro he; cases he)

/-- The `for policy in policies` loop of `check_compliance_gap`
(lines 144-148): union of each policy's mapping entry for the standard. -/
def implementedUnion (catalog : StandardCatalog) (sid : String)
    (policies : List Policy) : Finset String :=
  policies.foldl
    (fun acc policy =>
      let mapping := map_policy_to_standards catalog policy
      if dictContains mapping sid then acc ∪ (dictGetD mapping sid []).toFinset
      else acc)
    ∅

/-- `ComplianceMapper.check_compliance_gap` (lines 131-162).  The division
by `len(required_controls)` in the returned dict raises `ZeroDivisionError`
on an empty required list; the unknown-standard check happens first. -/
def check_compliance_gap (catalog : StandardCatalog) (required_standard : String)
    (required_controls : List String) (policies : List Policy) :
    Except GapError GapResult :=
  if dictContains catalog required_standard then
    let implemented := implementedUnion catalog required_standard policies
    let required_set := required_controls.toFinset
    let missing_controls := required_set \ implemented
    let implemented_controls := implemented ∩ required_set
    if required_controls.length = 0 then Except.error GapError.divisionByZero
    else Except.ok
      { standard := required_standard,
        required_controls := required_controls,
        implemented_controls := implemented_controls,
        missing_controls := missing_controls,
        coverage_percentage :=
          (implemented_controls.card : ℚ) / (required_controls.length : ℚ) * 100 }
  else Except.error (GapError.unknownStandard required_standard)

/-- The control ids contributed to standard `sid` by a reference list, in
order: one occurrence per reference that parses to `sid` and carries a
control id. -/
def controlsOf (refs : List String) (sid : String) : List String :=
  (refs.filter (fun r => parseStandardId r == sid)).filterMap parseControlId

/-- Worked example from the spec: standard `SOC-2` with controls `CC6.1`,
`CC6.2`. -/
def soc2Standard : ComplianceStandard :=
  { id := "SOC-2", name := "SOC 2", version := "2017",
    controls := [⟨"CC6.1", "CC6.1", "", "medium", []⟩,
                 ⟨"CC6.2", "CC6.2", "", "medium", []⟩] }

/-- Catalog holding only `SOC-2`. -/
def soc2Catalog : StandardCatalog := [("SOC-2", soc2Standard)]

/-- Policy A: `compliance: ["SOC-2-CC6.1"]`. -/
def policyA : Policy := ⟨some ⟨some "A", some ["SOC-2-CC6.1"]⟩⟩

/-- Policy B: `compliance: ["SOC-2"]` (bare standard reference). -/
def policyB : Policy := ⟨some ⟨some "B", some ["SOC-2"]⟩⟩

/-- Policy with the same fully qualified reference repeated twice. -/
def policyDup : Policy := ⟨some ⟨some "D", some ["SOC-2-CC6.1", "SOC-2-CC6.1"]⟩⟩

/-- Gap result of the spec's worked gap example. -/
def gapExample : GapResult :=
  { standard := "SOC-2",
    required_controls := ["CC6.1", "CC6.2"],
    implemented_controls := {"CC6.1"},
    missing_controls := {"CC6.2"},
    coverage_percentage := 50 }

/-- Gap result for a duplicated required list `["CC6.1", "CC6.1"]`. -/
def gapDup : GapResult :=
  { standard := "SOC-2",
    required_controls := ["CC6.1", "CC6.1"],
    implemented_controls := {"CC6.1"},
    missing_controls := ∅,
    coverage_percentage := 50 }

example : pySplit '-' "SOC-2-CC6.1" = ["SOC", "2", "CC6.1"] := by decide

example : map_policy_to_standards soc2Catalog policyA = [("SOC-2", ["CC6.1"])] := by decide

example : map_policy_to_standards soc2Catalog policyB = [("SOC-2", [])] := by decide

/-! ### Association-list (Python dict) lemmas -/

theorem dictGet?_cons {α : Type} (e : String × α) (d : List (String × α)) (k : String) :
    dictGet? (e :: d) k = if e.1 == k then some e.2 else dictGet? d k := by
  by_cases h : e.1 == k <;> simp [dictGet?, List.find?_cons, h]

theorem dictContains_cons {α : Type} (e : String × α) (d : List (String × α)) (k : String) :
    dictContains (e :: d) k = (e.1 == k || dictContains d k) := by
  simp [dictContains]

theorem dictContains_eq_isSome {α : Type} (d : List (String × α)) (k : String) :
    dictContains d k = (dictGet? d k).isSome := by
  induction d with
  | nil => rfl
  | cons e d ih =>
    by_cases h : e.1 == k
    · simp [dictContains_cons, dictGet?_cons, h]
    · simp [dictContains_cons, dictGet?_cons, h]
      simpa [dictContains] using ih

theorem dictContains_false_iff {α : Type} (d : List (String × α)) (k : String) :
    dictContains d k = false ↔ dictGet? d k = none := by
  rw [dictContains_eq_isSome]
  cases dictGet? d k <;> simp

theorem dictGet?_append {α : Type} (d₁ d₂ : List (String × α)) (k : String) :
    dictGet? (d₁ ++ d₂) k =
      match dictGet? d₁ k with
      | some v => some v
      | none => dictGet? d₂ k := by
  induction d₁ with
  | nil => simp [dictGet?]
  | cons e d ih =>
    by_cases h : e.1 == k <;> simp [dictGet?_cons, h, ih]

theorem dictModify_cons {α : Type} (e : String × α) (d : List (String × α))
    (k : String) (f : α → α) :
    dictModify (e :: d) k f =
      (if e.1 == k then (e.1, f e.2) else e) :: dictModify d k f := rfl

theorem dictKeys_cons {α : Type} (e : String × α) (d : List (String × α)) :
    dictKeys (e :: d) = e.1 :: dictKeys d := rfl

theorem modifyHead_fst {α : Type} (e : String × α) (k : String) (f : α → α) :
    (if e.1 == k then (e.1, f e.2) else e).1 = e.1 := by
  by_cases h : e.1 == k <;> simp [h]

theorem dictGet?_modify {α : Type} (d : List (String × α)) (k s : String) (f : α → α) :
    dictGet? (dictModify d k f) s =
      if k == s then (dictGet? d s).map f else dictGet? d s := by
  induction d with
  | nil => by_cases h : k == s <;> simp [dictModify, dictGet?, h]
  | cons e d ih =>
    rw [dictModify_cons]
    by_cases hek : e.1 = k
    · subst hek
      by_cases hes : e.1 = s
      · subst hes
        simp [dictGet?_cons]
      · have h1 : (e.1 == s) = false := by simpa using hes
        simp [dictGet?_cons, h1, ih]
    · have h1 : (e.1 == k) = false := by simpa using hek
      by_cases hes : e.1 = s
      · subst hes
        have h2 : (k == e.1) = false := by simpa using (Ne.symm hek)
        simp [dictGet?_cons, h1, h2]
      · have h2 : (e.1 == s) = false := by simpa using hes
        simp [dictGet?_cons, h1, h2, ih]

theorem dictKeys_modify {α : Type} (d : List (String × α)) (k : String) (f : α → α) :
    dictKeys (dictModify d k f) = dictKeys d := by
  induction d with
  | nil => rfl
  | cons e d ih =>
    rw [dictModify_cons, dictKeys_cons, dictKeys_cons, modifyHead_fst, ih]

theorem dictContains_iff_mem_keys {α : Type} (d : List (String × α)) (k : String) :
    dictContains d k = true ↔ k ∈ dictKeys d := by
  induction d with
  | nil => simp [dictContains, dictKeys]
  | cons e d ih =>
    by_cases h : e.1 == k
    · have h' : e.1 = k := by simpa using h
      simp [dictContains_cons, dictKeys, h, h']
    · have h' : ¬ e.1 = k := by simpa using h
      simp [dictContains_cons, dictKeys, h, ih]
      tauto

theorem dictKeys_append_single {α : Type} (d : List (String × α)) (k : String) (v : α) :
    dictKeys (d ++ [(k, v)]) = dictKeys d ++ [k] := by
  simp [dictKeys]

/-! ### Characterization of `map_policy_to_standards` -/

theorem controlsOf_cons (r : String) (rs : List String) (sid : String) :
    controlsOf (r :: rs) sid =
      (if parseStandardId r == sid then (parseControlId r).toList else []) ++
        controlsOf rs sid := by
  by_cases h : parseStandardId r == sid
  · simp only [controlsOf, List.filter_cons, h, if_true]
    cases hctl : parseControlId r <;> simp [List.filterMap_cons, hctl]
  · simp [controlsOf, List.filter_cons, h]

theorem controlsOf_eq_nil (rs : List String) (sid : String)
    (h : rs.any (fun r => parseStandardId r == sid) = false) :
    controlsOf rs sid = [] := by
  have hf : rs.filter (fun r => parseStandardId r == sid) = [] := by
    rw [List.filter_eq_nil_iff]
    intro a ha
    have := List.any_eq_false.mp h a ha
    simpa using this
  simp [controlsOf, hf]

theorem dictGet?_mapStep (catalog : StandardCatalog)
    (m : List (String × List String)) (r sid : String) :
    dictGet? (mapStep catalog m r) sid =
      if parseStandardId r == sid && dictContains catalog sid then
        some ((dictGet? m sid).getD [] ++ (parseControlId r).toList)
      else dictGet? m sid := by
  simp only [mapStep]
  by_cases hr : parseStandardId r = sid
  · subst hr
    by_cases hc : dictContains catalog (parseStandardId r)
    · by_cases hm : dictContains m (parseStandardId r)
      · obtain ⟨v, hv⟩ : ∃ v, dictGet? m (parseStandardId r) = some v := by
          have := (dictContains_eq_isSome m (parseStandardId r)) ▸ hm
          cases hg : dictGet? m (parseStandardId r)
          · rw [hg] at this; simp at this
          · exact ⟨_, rfl⟩
        cases hctl : parseControlId r
        · simp [hc, hm, hctl, hv]
        · simp [hc, hm, hctl, hv, dictGet?_modify]
      · have hm' : dictContains m (parseStandardId r) = false := by
          simpa using hm
        have hv : dictGet? m (parseStandardId r) = none :=
          (dictContains_false_iff m (parseStandardId r)).mp hm'
        cases hctl : parseControlId r
        · simp [hc, hm', hctl, hv, dictGet?_append, dictGet?_cons]
        · simp [hc, hm', hctl, hv, dictGet?_modify, dictGet?_append, dictGet?_cons]
    · have hc' : dictContains catalog (parseStandardId r) = false := by simpa using hc
      simp [hc']
  · have hb : (parseStandardId r == sid) = false := by simpa using hr
    by_cases hc : dictContains catalog (parseStandardId r)
    · by_cases hm : dictContains m (parseStandardId r)
      · cases hctl : parseControlId r <;>
          simp [hc, hm, hctl, hb, dictGet?_modify]
      · have hm' : dictContains m (parseStandardId r) = false := by simpa using hm
        have happ : dictGet? (m ++ [(parseStandardId r, [])]) sid = dictGet? m sid := by
          rw [dictGet?_append]
          cases hg : dictGet? m sid <;> simp [dictGet?, List.find?_cons, hb]
        cases hctl : parseControlId r <;>
          simp [hc, hm', hctl, hb, dictGet?_modify, happ]
    · have hc' : dictContains catalog (parseStandardId r) = false := by simpa using hc
      simp [hc', hb]

theorem dictGet?_foldl_mapStep (catalog : StandardCatalog) (refs : List String) :
    ∀ (m : List (String × List String)) (sid : String),
      dictGet? (refs.foldl (mapStep catalog) m) sid =
        if dictContains catalog sid && refs.any (fun r => parseStandardId r == sid) then
          some ((dictGet? m sid).getD [] ++ controlsOf refs sid)
        else dictGet? m sid := by
  induction refs with
  | nil => intro m sid; simp
  | cons r rs ih =>
    intro m sid
    rw [List.foldl_cons, ih, dictGet?_mapStep]
    by_cases hc : dictContains catalog sid
    · by_cases hr : parseStandardId r = sid
      · have hb : (parseStandardId r == sid) = true := by simpa using hr
        by_cases ha : rs.any (fun x => parseStandardId x == sid) = true
        · simp [hc, hb, ha, controlsOf_cons, List.any_cons]
        · have ha' : rs.any (fun x => parseStandardId x == sid) = false := by
            simpa using ha
          have hnil := controlsOf_eq_nil rs sid ha'
          simp [hc, hb, ha', hnil, controlsOf_cons, List.any_cons]
      · have hb : (parseStandardId r == sid) = false := by simpa using hr
        simp [hc, hb, controlsOf_cons, List.any_cons]
    · have hc' : dictContains catalog sid = false := by simpa using hc
      simp [hc']

theorem dictGet?_map_policy (catalog : StandardCatalog) (policy : Policy) (sid : String) :
    dictGet? (map_policy_to_standards catalog policy) sid =
      if dictContains catalog sid &&
          policy.complianceRefs.any (fun r => parseStandardId r == sid) then
        some (controlsOf policy.complianceRefs sid)
      else none := by
  unfold map_policy_to_standards
  rw [dictGet?_foldl_mapStep]
  simp [dictGet?]

/-! ### Keys of the mapping and report-summary folds -/

theorem dictContains_exists {α : Type} (d : List (String × α)) (k : String)
    (h : dictContains d k = true) : ∃ v, dictGet? d k = some v := by
  rw [dictContains_eq_isSome] at h
  cases hg : dictGet? d k
  · rw [hg] at h; simp at h
  · exact ⟨_, rfl⟩

theorem nodup_keys_mapStep (catalog : StandardCatalog)
    (m : List (String × List String)) (r : String)
    (h : (dictKeys m).Nodup) : (dictKeys (mapStep catalog m r)).Nodup := by
  simp only [mapStep]
  by_cases hc : dictContains catalog (parseStandardId r)
  · by_cases hm : dictContains m (parseStandardId r)
    · cases hctl : parseControlId r <;> simp [hc, hm, hctl, dictKeys_modify, h]
    · have hm' : dictContains m (parseStandardId r) = false := by simpa using hm
      have hmem : parseStandardId r ∉ dictKeys m := by
        intro hx
        have hx' := (dictContains_iff_mem_keys m (parseStandardId r)).mpr hx
        rw [hm'] at hx'
        simp at hx'
      have hnd : (dictKeys (m ++ [(parseStandardId r, ([] : List String))])).Nodup := by
        rw [dictKeys_append_single]
        simp [List.nodup_append, h, hmem]
      cases hctl : parseControlId r <;> simp [hc, hm', hctl, dictKeys_modify, hnd]
  · simp [hc, h]

theorem nodup_keys_foldl_mapStep (catalog : StandardCatalog) (refs : List String) :
    ∀ m : List (String × List String), (dictKeys m).Nodup →
      (dictKeys (refs.foldl (mapStep catalog) m)).Nodup := by
  induction refs with
  | nil => intro m h; simpa using h
  | cons r rs ih =>
    intro m h
    rw [List.foldl_cons]
    exact ih _ (nodup_keys_mapStep catalog m r h)

theorem nodup_keys_map_policy (catalog : StandardCatalog) (policy : Policy) :
    (dictKeys (map_policy_to_standards catalog policy)).Nodup :=
  nodup_keys_foldl_mapStep catalog policy.complianceRefs [] (by simp [dictKeys])

theorem standards_covered_summaryStep (s : ReportSummary) (entry : String × List String) :
    (summaryStep s entry).standards_covered = insert entry.1 s.standards_covered := rfl

theorem controls_covered_summaryStep (s : ReportSummary) (entry : String × List String)
    (k : String) :
    dictGetD (summaryStep s entry).controls_covered k ∅ =
      if entry.1 = k then dictGetD s.controls_covered k ∅ ∪ entry.2.toFinset
      else dictGetD s.controls_covered k ∅ := by
  by_cases hek : entry.1 = k
  · subst hek
    by_cases hc : dictContains s.controls_covered entry.1
    · obtain ⟨v, hv⟩ := dictContains_exists s.controls_covered entry.1 hc
      simp [summaryStep, dictGetD, hc, dictGet?_modify, hv]
    · have hc' : dictContains s.controls_covered entry.1 = false := by simpa using hc
      have hv : dictGet? s.controls_covered entry.1 = none :=
        (dictContains_false_iff _ _).mp hc'
      have happ : dictGet? (s.controls_covered ++ [(entry.1, (∅ : Finset String))])
          entry.1 = some ∅ := by
        rw [dictGet?_append, hv]
        simp [dictGet?, List.find?_cons]
      simp [summaryStep, dictGetD, hc', dictGet?_modify, happ, hv]
  · have hb : (entry.1 == k) = false := by simpa using hek
    by_cases hc : dictContains s.controls_covered entry.1
    · simp [summaryStep, dictGetD, hc, dictGet?_modify, hb, hek]
    · have hc' : dictContains s.controls_covered entry.1 = false := by simpa using hc
      have happ : dictGet? (s.controls_covered ++ [(entry.1, (∅ : Finset String))]) k =
          dictGet? s.controls_covered k := by
        rw [dictGet?_append]
        cases hg : dictGet? s.controls_covered k <;>
          simp [dictGet?, List.find?_cons, hb]
      simp [summaryStep, dictGetD, hc', dictGet?_modify, hb, hek, happ]

theorem controls_covered_foldl (entries : List (String × List String)) :
    ∀ (s : ReportSummary) (k : String),
      dictGetD (entries.foldl summaryStep s).controls_covered k ∅ =
        dictGetD s.controls_covered k ∅ ∪
          ((entries.filter (fun e => e.1 == k)).foldr
            (fun e acc => e.2.toFinset ∪ acc) ∅) := by
  induction entries with
  | nil => intro s k; simp
  | cons e es ih =>
    intro s k
    rw [List.foldl_cons, ih, controls_covered_summaryStep]
    by_cases hek : e.1 = k
    · subst hek
      simp [List.filter_cons, Finset.union_assoc]
    · have hb : (e.1 == k) = false := by simpa using hek
      simp [List.filter_cons, hek, hb]

theorem filterUnion_eq_dictGetD (entries : List (String × List String)) (k : String)
    (h : (dictKeys entries).Nodup) :
    ((entries.filter (fun e => e.1 == k)).foldr
        (fun e acc => e.2.toFinset ∪ acc) ∅) =
      (dictGetD entries k []).toFinset := by
  induction entries with
  | nil => simp [dictGetD, dictGet?]
  | cons e es ih =>
    rw [dictKeys_cons] at h
    have h1 : e.1 ∉ dictKeys es := (List.nodup_cons.mp h).1
    have h2 := (List.nodup_cons.mp h).2
    by_cases hek : e.1 = k
    · subst hek
      have hfe : es.filter (fun x => x.1 == e.1) = [] := by
        rw [List.filter_eq_nil_iff]
        intro a ha hx
        have hax : a.1 = e.1 := by simpa using hx
        exact h1 (hax ▸ (List.mem_map_of_mem (fun x => x.1) ha : a.1 ∈ dictKeys es))
      simp [List.filter_cons, hfe, dictGetD, dictGet?_cons]
    · have hb : (e.1 == k) = false := by simpa using hek
      simp [List.filter_cons, hb, dictGetD, dictGet?_cons, ih h2]

theorem standards_covered_foldl (entries : List (String × List String)) :
    ∀ s : ReportSummary,
      (entries.foldl summaryStep s).standards_covered =
        s.standards_covered ∪ (dictKeys entries).toFinset := by
  induction entries with
  | nil => intro s; simp [dictKeys]
  | cons e es ih =>
    intro s
    rw [List.foldl_cons, ih, standards_covered_summaryStep, dictKeys_cons,
      List.toFinset_cons, Finset.insert_union, Finset.union_insert]

theorem reportStep_summary (catalog : StandardCatalog) (r : ComplianceReport)
    (policy : Policy) :
    (reportStep catalog r policy).summary =
      (map_policy_to_standards catalog policy).foldl summaryStep r.summary := rfl

theorem report_foldl_standards_covered (catalog : StandardCatalog)
    (policies : List Policy) :
    ∀ r : ComplianceReport,
      (policies.foldl (reportStep catalog) r).summary.standards_covered =
        r.summary.standards_covered ∪
          policies.foldr
            (fun p acc =>
              (dictKeys (map_policy_to_standards catalog p)).toFinset ∪ acc) ∅ := by
  induction policies with
  | nil => intro r; simp
  | cons p ps ih =>
    intro r
    rw [List.foldl_cons, List.foldr_cons, ih, reportStep_summary,
      standards_covered_foldl, Finset.union_assoc]

/-! ### Generic helper for unions over a policy batch -/

theorem mem_foldr_union {β : Type} (f : β → Finset String) (l : List β) (x : String)
    (b : β) (hb : b ∈ l) (hx : x ∈ f b) :
    x ∈ l.foldr (fun p acc => f p ∪ acc) ∅ := by
  induction l with
  | nil => cases hb
  | cons q qs ih =>
    simp only [List.foldr_cons, Finset.mem_union]
    rcases List.mem_cons.mp hb with h | h
    · subst h; exact Or.inl hx
    · exact Or.inr (ih h)

/-! ### Concrete gap-analysis runs on the worked example -/

theorem check_gap_example :
    check_compliance_gap soc2Catalog "SOC-2" ["CC6.1", "CC6.2"] [policyA, policyB] =
      Except.ok gapExample := by
  have h1 : implementedUnion soc2Catalog "SOC-2" [policyA, policyB] ∩
      (["CC6.1", "CC6.2"] : List String).toFinset = {"CC6.1"} := by decide
  have h2 : (["CC6.1", "CC6.2"] : List String).toFinset \
      implementedUnion soc2Catalog "SOC-2" [policyA, policyB] = {"CC6.2"} := by decide
  simp only [check_compliance_gap]
  rw [if_pos (by decide), if_neg (by decide), h1, h2]
  simp only [gapExample, Except.ok.injEq, GapResult.mk.injEq]
  norm_num

theorem check_gap_dup :
    check_compliance_gap soc2Catalog "SOC-2" ["CC6.1", "CC6.1"] [policyA] =
      Except.ok gapDup := by
  have h1 : implementedUnion soc2Catalog "SOC-2" [policyA] ∩
      (["CC6.1", "CC6.1"] : List String).toFinset = {"CC6.1"} := by decide
  have h2 : (["CC6.1", "CC6.1"] : List String).toFinset \
      implementedUnion soc2Catalog "SOC-2" [policyA] = ∅ := by decide
  simp only [check_compliance_gap]
  rw [if_pos (by decide), if_neg (by decide), h1, h2]
  simp only [gapDup, Except.ok.injEq, GapResult.mk.injEq]
  norm_num

/-! ### Claims -/

/-- Claim C1 counterexample: policy B's only compliance reference `SOC-2`
parses to a known standard and carries no control id, yet `SOC-2` appears as
a key of the mapping returned by `map_policy_to_standards` (bound to an
empty control list), contradicting the claim that the standard id does not
appear as a key of the result. -/
theorem C1_counterexample :
    policyB.complianceRefs = ["SOC-2"] ∧
    parseControlId "SOC-2" = none ∧
    map_policy_to_standards soc2Catalog policyB = [("SOC-2", [])] ∧
    dictContains (map_policy_to_standards soc2Catalog policyB) "SOC-2" = true :=
  ⟨rfl, by decide, by decide, by decide⟩

/-- Claim C1 (amended): a compliance reference that parses to a standard id
present in the catalog makes that standard id a key of the mapping returned
by `map_policy_to_standards`, whether or not the reference carries a control
id; the source inserts the (empty-list) entry before the control-id check. -/
theorem C1_amended_known_standard_key (catalog : StandardCatalog) (policy : Policy)
    (ref : String) (hmem : ref ∈ policy.complianceRefs)
    (hknown : dictContains catalog (parseStandardId ref) = true) :
    dictContains (map_policy_to_standards catalog policy) (parseStandardId ref) = true := by
  rw [dictContains_eq_isSome, dictGet?_map_policy]
  have hany : policy.complianceRefs.any
      (fun r => parseStandardId r == parseStandardId ref) = true :=
    List.any_eq_true.mpr ⟨ref, hmem, by simp⟩
  simp [hknown, hany]

/-- Witness for C1 (amended) at policy B and reference `SOC-2`. -/
theorem C1_witness :
    dictContains (map_policy_to_standards soc2Catalog policyB) "SOC-2" = true := by
  have h := C1_amended_known_standard_key soc2Catalog policyB "SOC-2" (by decide) (by decide)
  have e : parseStandardId "SOC-2" = "SOC-2" := by decide
  rw [e] at h
  exact h

/-- Claim C2 counterexample: repeating the reference `SOC-2-CC6.1` twice in
one policy yields the value `["CC6.1", "CC6.1"]` in the mapping: the control
id occurs twice, so the per-standard collection is not deduplicated. -/
theorem C2_counterexample :
    policyDup.complianceRefs = ["SOC-2-CC6.1", "SOC-2-CC6.1"] ∧
    dictGet? (map_policy_to_standards soc2Catalog policyDup) "SOC-2" =
      some ["CC6.1", "CC6.1"] ∧
    (["CC6.1", "CC6.1"] : List String).count "CC6.1" = 2 :=
  ⟨rfl, by decide, by decide⟩

/-- Claim C2 (amended): the per-standard value built by
`map_policy_to_standards` is a list, not a set: the key is present exactly
when the standard is in the catalog and some reference parses to it, and its
value lists, in order and one occurrence per reference, the control ids of
the references resolving to that standard — duplicate references therefore
yield duplicate control ids (deduplication only happens in the later
set-valued aggregations). -/
theorem C2_amended_mapping_value (catalog : StandardCatalog) (policy : Policy)
    (sid : String) :
    dictGet? (map_policy_to_standards catalog policy) sid =
      if dictContains catalog sid &&
          policy.complianceRefs.any (fun r => parseStandardId r == sid) then
        some (controlsOf policy.complianceRefs sid)
      else none :=
  dictGet?_map_policy catalog policy sid

/-- Claim C3: when the standard is present in the catalog and the required
control list is empty, `check_compliance_gap` reaches the unguarded division
`len(implemented_controls) / len(required_controls)` and fails with a
division-by-zero error, for every policy batch. -/
theorem C3_empty_required_division_by_zero (catalog : StandardCatalog)
    (sid : String) (policies : List Policy)
    (h : dictContains catalog sid = true) :
    check_compliance_gap catalog sid [] policies =
      Except.error GapError.divisionByZero := by
  simp [check_compliance_gap, h]

/-- Witness for C3 at the `SOC-2` catalog. -/
theorem C3_witness :
    dictContains soc2Catalog "SOC-2" = true ∧
    check_compliance_gap soc2Catalog "SOC-2" [] [policyA, policyB] =
      Except.error GapError.divisionByZero :=
  ⟨by decide,
   C3_empty_required_division_by_zero soc2Catalog "SOC-2" [policyA, policyB] (by decide)⟩

/-- Claim C4: `check_compliance_gap` fails with the unknown-standard error
carrying the offending identifier exactly when the standard id is not a key
of the catalog; when the standard is present and the required list is
non-empty, a `GapResult` is returned. -/
theorem C4_unknown_standard_error (catalog : StandardCatalog) (sid : String)
    (req : List String) (policies : List Policy) :
    (check_compliance_gap catalog sid req policies =
        Except.error (GapError.unknownStandard sid) ↔
      dictContains catalog sid = false) ∧
    (dictContains catalog sid = true → req ≠ [] →
      ∃ g : GapResult, check_compliance_gap catalog sid req policies = Except.ok g) := by
  by_cases hc : dictContains catalog sid
  · constructor
    · constructor
      · intro h
        by_cases hr : req.length = 0
        · simp [check_compliance_gap, hc, hr] at h
        · simp [check_compliance_gap, hc, hr] at h
      · intro h
        rw [hc] at h
        simp at h
    · intro _ hreq
      have hr : ¬ req.length = 0 := by simpa using hreq
      refine ⟨{ standard := sid, required_controls := req,
                implemented_controls := implementedUnion catalog sid policies ∩ req.toFinset,
                missing_controls := req.toFinset \ implementedUnion catalog sid policies,
                coverage_percentage :=
                  ((implementedUnion catalog sid policies ∩ req.toFinset).card : ℚ) /
                    (req.length : ℚ) * 100 }, ?_⟩
      simp [check_compliance_gap, hc, hr]
  · have hc' : dictContains catalog sid = false := by simpa using hc
    constructor
    · simp [check_compliance_gap, hc']
    · intro h
      rw [h] at hc'
      simp at hc'

/-- Witness for C4 on the spec's gap example. -/
theorem C4_witness :
    ∃ g : GapResult, check_compliance_gap soc2Catalog "SOC-2" ["CC6.1", "CC6.2"]
      [policyA, policyB] = Except.ok g :=
  (C4_unknown_standard_error soc2Catalog "SOC-2" ["CC6.1", "CC6.2"]
    [policyA, policyB]).2 (by decide) (by decide)

/-- Claim C5: splitting the reference on the hyphen, at least two tokens
give a standard id equal to the first two tokens joined by a hyphen, with
the control id equal to the remaining tokens joined by hyphens when more
than two tokens exist and absent otherwise; fewer than two tokens leave the
standard id equal to the original string with no control id.  Both parsing
functions are total over strings. -/
theorem C5_reference_parsing (ref : String) :
    (∀ t1 t2 rest, pySplit '-' ref = t1 :: t2 :: rest →
        parseStandardId ref = t1 ++ "-" ++ t2 ∧
        parseControlId ref = if rest = [] then none else some (pyJoin "-" rest)) ∧
    ((pySplit '-' ref).length < 2 →
        parseStandardId ref = ref ∧ parseControlId ref = none) := by
  constructor
  · intro t1 t2 rest h
    constructor
    · simp only [parseStandardId, h]
      rw [if_pos (by simp)]
      rfl
    · simp only [parseControlId, h]
      cases rest with
      | nil => simp
      | cons a as =>
        rw [if_pos (by simp)]
        simp
  · intro h
    constructor
    · simp only [parseStandardId]
      rw [if_neg (by omega)]
    · simp only [parseControlId]
      rw [if_neg (by omega)]

/-- Witness for C5 on `SOC-2-CC6.1` (three tokens) and `ISO` (one token). -/
theorem C5_witness :
    (parseStandardId "SOC-2-CC6.1" = "SOC" ++ "-" ++ "2" ∧
      parseControlId "SOC-2-CC6.1" =
        if (["CC6.1"] : List String) = [] then none
        else some (pyJoin "-" ["CC6.1"])) ∧
    (parseStandardId "ISO" = "ISO" ∧ parseControlId "ISO" = none) :=
  ⟨(C5_reference_parsing "SOC-2-CC6.1").1 "SOC" "2" ["CC6.1"] (by decide),
   (C5_reference_parsing "ISO").2 (by decide)⟩

/-- Claim C6: every `GapResult` actually returned by `check_compliance_gap`
partitions the deduplicated required controls: implemented and missing
controls union to the set of required controls and are disjoint; duplicates
in the required list do not multiply membership. -/
theorem C6_gap_partition (catalog : StandardCatalog) (sid : String)
    (req : List String) (policies : List Policy) (g : GapResult)
    (h : check_compliance_gap catalog sid req policies = Except.ok g) :
    g.implemented_controls ∪ g.missing_controls = req.toFinset ∧
    g.implemented_controls ∩ g.missing_controls = ∅ := by
  by_cases hc : dictContains catalog sid
  · by_cases hr : req.length = 0
    · simp [check_compliance_gap, hc, hr] at h
    · simp only [check_compliance_gap, hc, if_true, hr, if_false,
        Except.ok.injEq] at h
      subst h
      constructor
      · ext x
        simp only [Finset.mem_union, Finset.mem_inter, Finset.mem_sdiff]
        tauto
      · ext x
        simp only [Finset.mem_inter, Finset.mem_sdiff, Finset.not_mem_empty]
        tauto
  · have hc' : dictContains catalog sid = false := by simpa using hc
    simp [check_compliance_gap, hc'] at h

/-- Witness for C6 on the spec's gap example. -/
theorem C6_witness :
    gapExample.implemented_controls ∪ gapExample.missing_controls =
      (["CC6.1", "CC6.2"] : List String).toFinset ∧
    gapExample.implemented_controls ∩ gapExample.missing_controls = ∅ :=
  C6_gap_partition soc2Catalog "SOC-2" ["CC6.1", "CC6.2"] [policyA, policyB]
    gapExample check_gap_example

/-- Claim C7: the coverage percentage of every `GapResult` returned by
`check_compliance_gap` lies between 0 and 100. -/
theorem C7_coverage_bounds (catalog : StandardCatalog) (sid : String)
    (req : List String) (policies : List Policy) (g : GapResult)
    (h : check_compliance_gap catalog sid req policies = Except.ok g) :
    0 ≤ g.coverage_percentage ∧ g.coverage_percentage ≤ 100 := by
  by_cases hc : dictContains catalog sid
  · by_cases hr : req.length = 0
    · simp [check_compliance_gap, hc, hr] at h
    · simp only [check_compliance_gap, hc, if_true, hr, if_false,
        Except.ok.injEq] at h
      subst h
      have hlen : 0 < req.length := Nat.pos_of_ne_zero hr
      have hcard : (implementedUnion catalog sid policies ∩ req.toFinset).card ≤
          req.length :=
        le_trans (Finset.card_le_card Finset.inter_subset_right)
          (List.toFinset_card_le req)
      have hn : (0 : ℚ) < (req.length : ℚ) := by exact_mod_cast hlen
      have hcard' : ((implementedUnion catalog sid policies ∩ req.toFinset).card : ℚ) ≤
          (req.length : ℚ) := by exact_mod_cast hcard
      constructor
      · exact mul_nonneg (div_nonneg (Nat.cast_nonneg _) (Nat.cast_nonneg _))
          (by norm_num)
      · calc ((implementedUnion catalog sid policies ∩ req.toFinset).card : ℚ) /
              (req.length : ℚ) * 100
            ≤ 1 * 100 :=
              mul_le_mul_of_nonneg_right ((div_le_one hn).mpr hcard') (by norm_num)
          _ = 100 := by norm_num
  · have hc' : dictContains catalog sid = false := by simpa using hc
    simp [check_compliance_gap, hc'] at h

/-- Witness for C7 on the spec's gap example. -/
theorem C7_witness :
    0 ≤ gapExample.coverage_percentage ∧ gapExample.coverage_percentage ≤ 100 :=
  C7_coverage_bounds soc2Catalog "SOC-2" ["CC6.1", "CC6.2"] [policyA, policyB]
    gapExample check_gap_example

/-- Claim C10: the coverage denominator is the raw length of the required
list (duplicates included) while the numerator counts the deduplicated
intersection: with required list `["CC6.1", "CC6.1"]` and `CC6.1`
implemented, nothing is missing yet coverage is 50, strictly below 100. -/
theorem C10_duplicate_required_denominator :
    check_compliance_gap soc2Catalog "SOC-2" ["CC6.1", "CC6.1"] [policyA] =
      Except.ok gapDup ∧
    gapDup.missing_controls = ∅ ∧
    gapDup.implemented_controls = {"CC6.1"} ∧
    gapDup.coverage_percentage = 50 ∧
    gapDup.coverage_percentage < 100 :=
  ⟨check_gap_dup, by decide, by decide, by decide, by norm_num [gapDup]⟩

/-- Claim C8: aggregating the batch `[P1, P2]`, the summary's covered-control
set for any standard equals the set union of the two per-policy mapping
values for that standard, an absent key contributing the empty set. -/
theorem C8_aggregation_union (catalog : StandardCatalog) (p1 p2 : Policy)
    (s : String) :
    dictGetD (generate_compliance_report catalog [p1, p2]).summary.controls_covered
        s ∅ =
      (dictGetD (map_policy_to_standards catalog p1) s []).toFinset ∪
      (dictGetD (map_policy_to_standards catalog p2) s []).toFinset := by
  have hunfold : generate_compliance_report catalog [p1, p2] =
      reportStep catalog (reportStep catalog
        { summary := { total_policies := 2, standards_covered := ∅,
                       controls_covered := [] },
          details := [] } p1) p2 := rfl
  rw [hunfold, reportStep_summary, controls_covered_foldl,
    reportStep_summary, controls_covered_foldl,
    filterUnion_eq_dictGetD _ _ (nodup_keys_map_policy catalog p1),
    filterUnion_eq_dictGetD _ _ (nodup_keys_map_policy catalog p2)]
  simp [dictGetD, dictGet?, Finset.union_assoc]

/-- Claim C9: after aggregation, `standards_covered` equals the union over
the input policies of the key sets of their mappings; consequently any
standard referenced by some policy and present in the catalog — with or
without a control id on the reference — appears in `standards_covered`. -/
theorem C9_standards_covered (catalog : StandardCatalog) (policies : List Policy) :
    (generate_compliance_report catalog policies).summary.standards_covered =
      policies.foldr
        (fun p acc =>
          (dictKeys (map_policy_to_standards catalog p)).toFinset ∪ acc) ∅ ∧
    (∀ p ∈ policies, ∀ ref ∈ p.complianceRefs,
      dictContains catalog (parseStandardId ref) = true →
      parseStandardId ref ∈
        (generate_compliance_report catalog policies).summary.standards_covered) := by
  have hmain : (generate_compliance_report catalog policies).summary.standards_covered =
      policies.foldr
        (fun p acc =>
          (dictKeys (map_policy_to_standards catalog p)).toFinset ∪ acc) ∅ := by
    unfold generate_compliance_report
    rw [report_foldl_standards_covered]
    simp
  refine ⟨hmain, ?_⟩
  intro p hp ref href hknown
  rw [hmain]
  have hkey : parseStandardId ref ∈
      (dictKeys (map_policy_to_standards catalog p)).toFinset := by
    rw [List.mem_toFinset, ← dictContains_iff_mem_keys, dictContains_eq_isSome,
      dictGet?_map_policy]
    have hany : p.complianceRefs.any
        (fun r => parseStandardId r == parseStandardId ref) = true :=
      List.any_eq_true.mpr ⟨ref, href, by simp⟩
    simp [hknown, hany]
  exact mem_foldr_union
    (fun q => (dictKeys (map_policy_to_standards catalog q)).toFinset)
    policies (parseStandardId ref) p hp hkey

/-- Witness for C9: `SOC-2`, referenced by policy B without a control id,
is covered in the aggregated report over policies A and B. -/
theorem C9_witness :
    "SOC-2" ∈ (generate_compliance_report soc2Catalog
      [policyA, policyB]).summary.standards_covered := by
  have h := (C9_standards_covered soc2Catalog [policyA, policyB]).2 policyB
    (by decide) "SOC-2" (by decide) (by decide)
  have e : parseStandardId "SOC-2" = "SOC-2" := by decide
  rw [e] at h
  exact h
